import Mathlib

/-!
A shallow embedding of `src/pg_uuidv7.c`, a PostgreSQL extension that
generates RFC 9562 version-7 UUIDs and converts between PostgreSQL
timestamps and UUIDs.

Modelling conventions:
* a 16-byte UUID is a `List Nat` of length 16 whose entries are bytes
  (each `< 256`);
* 64-bit unsigned machine arithmetic is `Nat` arithmetic reduced modulo
  `2 ^ 64` wherever the C code can wrap;
* a PostgreSQL `Timestamp`/`TimestampTz` is an `Int` (a signed 64-bit
  microsecond count); the C casts between `int64` and `uint64` are the
  explicit reinterpretations `toUnsigned64`/`toSigned64`;
* the external random source (`pg_strong_random`) and clock
  (`clock_gettime`) are `Option`-valued inputs, `none` meaning failure;
* a function that can `ereport(ERROR, ...)` returns `Except UuidError`.
-/

namespace PgUuidv7

/-- Number of microseconds between the Unix and the PostgreSQL epoch,
`(POSTGRES_EPOCH_JDATE - UNIX_EPOCH_JDATE) * USECS_PER_DAY` with the
PostgreSQL header constants `POSTGRES_EPOCH_JDATE = 2451545`
(2000-01-01), `UNIX_EPOCH_JDATE = 2440588` (1970-01-01) and
`USECS_PER_DAY = 86400000000`. -/
def EPOCH_DIFF_USECS : Nat := (2451545 - 2440588) * 86400000000

/-- The two failure conditions the module can report via `ereport`. -/
inductive UuidError where
  | clockUnavailable
  | randomUnavailable
  deriving DecidableEq, Repr

/-- Reinterpret a 64-bit unsigned value as a signed two's-complement
64-bit integer (the implicit conversion in `PG_RETURN_TIMESTAMPTZ(ts)`
where `ts` is a `uint64_t`). -/
def toSigned64 (n : Nat) : Int :=
  if n < 2 ^ 63 then (n : Int) else (n : Int) - 2 ^ 64

/-- Reinterpret a signed 64-bit integer as its unsigned 64-bit bit
pattern (the implicit conversion when a `Timestamp` is passed for the
`uint64_t ts` parameter of `uuid_uint64_to_v7`). -/
def toUnsigned64 (i : Int) : Nat := (i % 2 ^ 64).toNat

/-- Byte `j` (with `j = 0` the most significant) of the big-endian
8-byte representation of a 64-bit word: what `pg_hton64` followed by
`memcpy` stores at offset `j`. -/
def beByte (w j : Nat) : Nat := w / 2 ^ (8 * (7 - j)) % 256

/-- The 12-bit sub-millisecond fraction computed by `uuid_generate_v7`:
`(((uint64_t)ts.tv_nsec << 12) / 1000000) & 0x0fff`. -/
def v7_subms_fraction (nsec : Nat) : Nat :=
  (((nsec <<< 12) % 2 ^ 64) / 1000000) &&& 0x0fff

/-- The reference formula for the sub-millisecond fraction as stated by
the specification: `(nanoseconds_within_ms * 4096) / 1_000_000`,
truncating. -/
def fraction_by_spec (nsec : Nat) : Nat := ((nsec % 1000000) * 4096) / 1000000

/-- The first 64-bit word assembled by `uuid_generate_v7`:
`(tms << 16) | 0x7000 | fraction`, in wrapping `uint64_t` arithmetic. -/
def v7_first_word (tms0 frac : Nat) : Nat :=
  (((tms0 <<< 16) % 2 ^ 64) ||| 0x7000) ||| frac

/-- `uuid_generate_v7`: reads the realtime clock (`clock` is
`some (tv_sec, tv_nsec)` on success), packs the millisecond count and
the sub-millisecond fraction into the first 8 bytes, fills the last 8
bytes from the random source and forces the variant bits of byte 8. -/
def uuid_generate_v7 (clock : Option (Nat × Nat)) (rand : Option (List Nat)) :
    Except UuidError (List Nat) :=
  match clock with
  | none => .error .clockUnavailable
  | some (sec, nsec) =>
    let tms0 : Nat := (sec * 1000 + nsec / 1000000) % 2 ^ 64
    let word : Nat := v7_first_word tms0 (v7_subms_fraction nsec)
    match rand with
    | none => .error .randomUnavailable
    | some r =>
      .ok [beByte word 0, beByte word 1, beByte word 2, beByte word 3,
           beByte word 4, beByte word 5, beByte word 6, beByte word 7,
           (r.getD 0 0 &&& 0x3f) ||| 0x80, r.getD 1 0, r.getD 2 0,
           r.getD 3 0, r.getD 4 0, r.getD 5 0, r.getD 6 0, r.getD 7 0]

/-- The value `uuid_v7_to_uint64` reads from the first 6 UUID bytes:
`memcpy` of 6 bytes followed by `pg_ntoh64(ts) >> 16`, i.e. the
big-endian 48-bit integer formed by bytes 0..5 (the two uninitialised
low-order bytes are shifted out). -/
def beVal6 (u : List Nat) : Nat :=
  u.getD 0 0 * 2 ^ 40 + u.getD 1 0 * 2 ^ 32 + u.getD 2 0 * 2 ^ 24 +
    u.getD 3 0 * 2 ^ 16 + u.getD 4 0 * 2 ^ 8 + u.getD 5 0

/-- The big-endian 6-byte (48-bit) representation of a millisecond
count, as the specification describes the contents of bytes 0..5. -/
def be48 (m : Nat) : List Nat :=
  [m / 2 ^ 40 % 256, m / 2 ^ 32 % 256, m / 2 ^ 24 % 256,
   m / 2 ^ 16 % 256, m / 2 ^ 8 % 256, m % 256]

/-- `uuid_v7_to_uint64`: extract the 48-bit millisecond field and
compute `1000 * ts - EPOCH_DIFF_USECS` in wrapping `uint64_t`
arithmetic. -/
def uuid_v7_to_uint64 (u : List Nat) : Nat :=
  ((1000 * beVal6 u) % 2 ^ 64 + (2 ^ 64 - EPOCH_DIFF_USECS)) % 2 ^ 64

/-- `uuid_v7_to_timestamptz`: return `uuid_v7_to_uint64` as a signed
`TimestampTz`. -/
def uuid_v7_to_timestamptz (u : List Nat) : Int :=
  toSigned64 (uuid_v7_to_uint64 u)

/-- `uuid_v7_to_timestamp`: return `uuid_v7_to_uint64` as a signed
`Timestamp`. -/
def uuid_v7_to_timestamp (u : List Nat) : Int :=
  toSigned64 (uuid_v7_to_uint64 u)

/-- `uuid_uint64_to_v7`: place `(ts + EPOCH_DIFF_USECS) / 1000`
(wrapping `uint64_t` arithmetic) shifted left by 16 into the first 6
bytes (big-endian), fill bytes 6..15 with zeros (`zero = true`) or with
random bytes, then force the version nibble of byte 6 and the variant
bits of byte 8. -/
def uuid_uint64_to_v7 (ts : Int) (zero : Bool) (rand : Option (List Nat)) :
    Except UuidError (List Nat) :=
  let tms : Nat := ((toUnsigned64 ts + EPOCH_DIFF_USECS) % 2 ^ 64) / 1000
  let w : Nat := (tms <<< 16) % 2 ^ 64
  match (if zero then some (List.replicate 10 0) else rand) with
  | none => .error .randomUnavailable
  | some t =>
    .ok [beByte w 0, beByte w 1, beByte w 2, beByte w 3, beByte w 4,
         beByte w 5,
         (t.getD 0 0 &&& 0x0f) ||| 0x70, t.getD 1 0,
         (t.getD 2 0 &&& 0x3f) ||| 0x80, t.getD 3 0, t.getD 4 0,
         t.getD 5 0, t.getD 6 0, t.getD 7 0, t.getD 8 0, t.getD 9 0]

/-- `uuid_timestamptz_to_v7`: the `TimestampTz` entry point; a missing
second argument (`NULL`) defaults `zero` to `false`. -/
def uuid_timestamptz_to_v7 (ts : Int) (zeroArg : Option Bool)
    (rand : Option (List Nat)) : Except UuidError (List Nat) :=
  uuid_uint64_to_v7 ts (zeroArg.getD false) rand

/-- `uuid_timestamp_to_v7`: the `Timestamp` entry point; a missing
second argument (`NULL`) defaults `zero` to `false`. -/
def uuid_timestamp_to_v7 (ts : Int) (zeroArg : Option Bool)
    (rand : Option (List Nat)) : Except UuidError (List Nat) :=
  uuid_uint64_to_v7 ts (zeroArg.getD false) rand

/-- Strict lexicographic byte-sequence comparison (the order used by
the "monotonic ordering" property). -/
def lexLt : List Nat → List Nat → Bool
  | _, [] => false
  | [], _ :: _ => true
  | a :: as, b :: bs => decide (a < b) || (a == b && lexLt as bs)

/-! ### Arithmetic helper lemmas -/

/-- Bitwise or of a multiple of `2 ^ n` with a value below `2 ^ n` is
addition. -/
theorem two_pow_mul_or_lt {n : Nat} (q : Nat) {y : Nat} (hy : y < 2 ^ n) :
    (2 ^ n * q) ||| y = 2 ^ n * q + y := by
  apply Nat.eq_of_testBit_eq
  intro j
  rw [Nat.testBit_or, Nat.testBit_mul_pow_two_add _ hy, Nat.testBit_mul_pow_two]
  by_cases h : j < n
  · simp [h, Nat.not_le_of_lt h]
  · have hyj : y.testBit j = false :=
      Nat.testBit_lt_two_pow
        (lt_of_lt_of_le hy (Nat.pow_le_pow_right (by norm_num) (Nat.le_of_not_lt h)))
    simp [h, hyj, Nat.le_of_not_lt h]

theorem and_15_eq_mod (t : Nat) : t &&& 15 = t % 16 := by
  have h := Nat.and_pow_two_sub_one_eq_mod t 4
  norm_num at h
  exact h

theorem and_63_eq_mod (t : Nat) : t &&& 63 = t % 64 := by
  have h := Nat.and_pow_two_sub_one_eq_mod t 6
  norm_num at h
  exact h

theorem and_4095_eq_mod (t : Nat) : t &&& 4095 = t % 4096 := by
  have h := Nat.and_pow_two_sub_one_eq_mod t 12
  norm_num at h
  exact h

/-- The version byte written by `uuid_uint64_to_v7`. -/
theorem version_byte_eq (t : Nat) : (t &&& 0x0f) ||| 0x70 = 112 + t % 16 := by
  rw [and_15_eq_mod, Nat.or_comm]
  have h := two_pow_mul_or_lt (n := 4) 7 (y := t % 16) (by omega)
  norm_num at h
  exact h

/-- The variant byte written by both encoders. -/
theorem variant_byte_eq (t : Nat) : (t &&& 0x3f) ||| 0x80 = 128 + t % 64 := by
  rw [and_63_eq_mod, Nat.or_comm]
  have h := two_pow_mul_or_lt (n := 6) 2 (y := t % 64) (by omega)
  norm_num at h
  exact h

/-- The sub-millisecond fraction is a 12-bit value. -/
theorem v7_subms_fraction_lt (nsec : Nat) : v7_subms_fraction nsec < 4096 := by
  unfold v7_subms_fraction
  rw [show (0x0fff : Nat) = 4095 from rfl, and_4095_eq_mod]
  omega

/-- Closed form of the first word of `uuid_generate_v7`. -/
theorem v7_first_word_eq (tms0 frac : Nat) (hf : frac < 4096) :
    v7_first_word tms0 frac = (tms0 % 2 ^ 48) * 65536 + 28672 + frac := by
  unfold v7_first_word
  have h1 : (tms0 <<< 16) % 2 ^ 64 = 2 ^ 16 * (tms0 % 2 ^ 48) := by
    rw [Nat.shiftLeft_eq, show (2 : Nat) ^ 64 = 2 ^ 48 * 2 ^ 16 from by norm_num,
      Nat.mul_mod_mul_right]
    ring
  rw [h1, two_pow_mul_or_lt _ (show (0x7000 : Nat) < 2 ^ 16 by norm_num)]
  have h2 : 2 ^ 16 * (tms0 % 2 ^ 48) + 0x7000 = 2 ^ 12 * (16 * (tms0 % 2 ^ 48) + 7) := by
    ring
  rw [h2, two_pow_mul_or_lt _ (show frac < 2 ^ 12 by omega)]
  ring

/-- Closed form of the millisecond word of `uuid_uint64_to_v7`. -/
theorem encode_shift_eq (tms : Nat) :
    (tms <<< 16) % 2 ^ 64 = (tms % 2 ^ 48) * 65536 := by
  rw [Nat.shiftLeft_eq, show (2 : Nat) ^ 64 = 2 ^ 48 * 2 ^ 16 from by norm_num,
    Nat.mul_mod_mul_right]

/-- `beVal6` only depends on the first six list entries. -/
theorem beVal6_congr {u v : List Nat} (h : v.take 6 = u.take 6) :
    beVal6 v = beVal6 u := by
  have hi : ∀ i, i < 6 → v.getD i 0 = u.getD i 0 := by
    intro i hlt
    rw [List.getD_eq_getElem?_getD, List.getD_eq_getElem?_getD,
      ← List.getElem?_take_of_lt (l := v) (n := 6) hlt,
      ← List.getElem?_take_of_lt (l := u) (n := 6) hlt, h]
  unfold beVal6
  rw [hi 0 (by norm_num), hi 1 (by norm_num), hi 2 (by norm_num),
    hi 3 (by norm_num), hi 4 (by norm_num), hi 5 (by norm_num)]

/-- In a 16-byte UUID every indexed read is a byte. -/
theorem getD_lt_of_bytes {u : List Nat} (hlen : u.length = 16)
    (hbytes : ∀ b ∈ u, b < 256) (i : Nat) (hi : i < 16) : u.getD i 0 < 256 := by
  have hlt : i < u.length := by omega
  have hmem : u.getD i 0 ∈ u := by
    rw [List.getD_eq_getElem?_getD, List.getElem?_eq_getElem hlt]
    exact List.getElem_mem hlt
  exact hbytes _ hmem

/-! ### Claims -/

/-- C9: The timezone-aware and timezone-naive entry points are
extensionally equal: `uuid_v7_to_timestamptz` and `uuid_v7_to_timestamp`
agree on every UUID, and `uuid_timestamptz_to_v7` and
`uuid_timestamp_to_v7` agree on every `(ts, zero_fill)` pair and
random-source output (both pairs delegate to the same helper). -/
theorem tz_naive_entry_points_equal :
    (∀ u : List Nat, uuid_v7_to_timestamptz u = uuid_v7_to_timestamp u) ∧
    (∀ (ts : Int) (zeroArg : Option Bool) (rand : Option (List Nat)),
      uuid_timestamptz_to_v7 ts zeroArg rand = uuid_timestamp_to_v7 ts zeroArg rand) :=
  ⟨fun _ => rfl, fun _ _ _ => rfl⟩

/-- C5: `encode_from_timestamp` with `zero_fill = true` is deterministic
(the random source never influences the result) and its bytes 6..15 are
the fixed sequence `0x70, 0x00, 0x80, 0x00, ..., 0x00`. -/
theorem zero_fill_deterministic (ts : Int) (rand rand' : Option (List Nat)) :
    uuid_uint64_to_v7 ts true rand = uuid_uint64_to_v7 ts true rand' ∧
    ∃ u : List Nat, uuid_uint64_to_v7 ts true rand = .ok u ∧
      u.drop 6 = [0x70, 0x00, 0x80, 0, 0, 0, 0, 0, 0, 0] := by
  constructor
  · rfl
  · exact ⟨_, rfl, rfl⟩

/-- C6: `uuid_uint64_to_v7` raises an error exactly when `zero_fill` is
false and the random source fails; the only error it raises is
`randomUnavailable`; and with `zero_fill = true` it always returns a
UUID (returning `Except.error` excludes returning any UUID). -/
theorem encode_error_iff (ts : Int) (zero : Bool) (rand : Option (List Nat)) :
    ((∃ e, uuid_uint64_to_v7 ts zero rand = .error e) ↔ zero = false ∧ rand = none) ∧
    (∀ e, uuid_uint64_to_v7 ts zero rand = .error e → e = .randomUnavailable) ∧
    (zero = true → ∃ u, uuid_uint64_to_v7 ts zero rand = .ok u) := by
  cases zero <;> cases rand <;> simp [uuid_uint64_to_v7]

/-- Witness for C6 at `ts = 0`: with `zero_fill = false` and a failing
random source an error is raised, and with `zero_fill = true` a UUID is
returned. -/
theorem encode_error_iff_witness :
    (∃ e, uuid_uint64_to_v7 0 false none = .error e) ∧
    (∃ u, uuid_uint64_to_v7 0 true none = .ok u) :=
  ⟨(encode_error_iff 0 false none).1.mpr ⟨rfl, rfl⟩,
   (encode_error_iff 0 true none).2.2 rfl⟩

/-- C4: for every nanosecond input `0 ≤ n ≤ 999999999`, the bit-shift
computation `((n << 12) / 1000000) & 0x0fff` used by `uuid_generate_v7`
equals the reference formula `((n % 1000000) * 4096) / 1000000`, and the
result is below 4096. -/
theorem fraction_shift_equiv (n : Nat) (h : n ≤ 999999999) :
    v7_subms_fraction n = fraction_by_spec n ∧ v7_subms_fraction n < 4096 := by
  refine ⟨?_, v7_subms_fraction_lt n⟩
  unfold v7_subms_fraction fraction_by_spec
  rw [show (0x0fff : Nat) = 4095 from rfl, and_4095_eq_mod, Nat.shiftLeft_eq]
  have hlt : n * 2 ^ 12 < 2 ^ 64 := by omega
  rw [Nat.mod_eq_of_lt hlt]
  have hq : n * 2 ^ 12 = n % 1000000 * 4096 + n / 1000000 * 4096 * 1000000 := by omega
  rw [hq, Nat.add_mul_div_right _ _ (by norm_num : (0 : Nat) < 1000000),
    Nat.add_mul_mod_self_right]
  have hr : n % 1000000 * 4096 < 1000000 * 4096 := by omega
  exact Nat.mod_eq_of_lt (Nat.div_lt_of_lt_mul hr)

/-- Witness for C4 at the largest valid nanosecond input. -/
theorem fraction_shift_equiv_witness :
    999999999 ≤ 999999999 ∧
      (v7_subms_fraction 999999999 = fraction_by_spec 999999999 ∧
        v7_subms_fraction 999999999 < 4096) :=
  ⟨by decide, fraction_shift_equiv 999999999 (by decide)⟩

/-- C2: every UUID returned by `uuid_generate_v7` and every UUID
returned by `uuid_uint64_to_v7` (either value of `zero_fill`) has byte
6's top nibble equal to `0111` (7) and byte 8's top two bits equal to
`10` (2). -/
theorem version_variant_invariant :
    (∀ (clock : Option (Nat × Nat)) (rand : Option (List Nat)) (u : List Nat),
        uuid_generate_v7 clock rand = .ok u →
          u.getD 6 0 / 16 = 7 ∧ u.getD 8 0 / 64 = 2) ∧
    (∀ (ts : Int) (zero : Bool) (rand : Option (List Nat)) (u : List Nat),
        uuid_uint64_to_v7 ts zero rand = .ok u →
          u.getD 6 0 / 16 = 7 ∧ u.getD 8 0 / 64 = 2) := by
  constructor
  · intro clock rand u h
    rcases clock with _ | ⟨sec, nsec⟩
    · simp [uuid_generate_v7] at h
    · rcases rand with _ | r
      · simp [uuid_generate_v7] at h
      · simp only [uuid_generate_v7, Except.ok.injEq] at h
        subst h
        have hf := v7_subms_fraction_lt nsec
        constructor
        · simp only [List.getD]
          simp
          rw [v7_first_word_eq _ _ hf]
          unfold beByte
          norm_num
          omega
        · simp only [List.getD]
          simp
          rw [variant_byte_eq]
          omega
  · intro ts zero rand u h
    rcases zero with _ | _
    · rcases rand with _ | r
      · simp [uuid_uint64_to_v7] at h
      · simp only [uuid_uint64_to_v7, Bool.false_eq_true, if_false, Except.ok.injEq] at h
        subst h
        constructor
        · simp
          rw [version_byte_eq]
          omega
        · simp
          rw [variant_byte_eq]
          omega
    · simp only [uuid_uint64_to_v7, if_true, Except.ok.injEq] at h
      subst h
      constructor
      · simp
      · simp

/-- Witness for C2: a generated UUID (time 0, zeroed random bytes) and
an encoded UUID (`ts = 0`, `zero_fill = true`) both carry the version
nibble 7 in byte 6 and the variant bits `10` in byte 8. -/
theorem version_variant_invariant_witness :
    ([0, 0, 0, 0, 0, 0, 112, 0, 128, 0, 0, 0, 0, 0, 0, 0].getD 6 0 / 16 = 7 ∧
      [0, 0, 0, 0, 0, 0, 112, 0, 128, 0, 0, 0, 0, 0, 0, 0].getD 8 0 / 64 = 2) ∧
    ([0, 220, 106, 207, 172, 0, 112, 0, 128, 0, 0, 0, 0, 0, 0, 0].getD 6 0 / 16 = 7 ∧
      [0, 220, 106, 207, 172, 0, 112, 0, 128, 0, 0, 0, 0, 0, 0, 0].getD 8 0 / 64 = 2) :=
  ⟨version_variant_invariant.1 (some (0, 0)) (some (List.replicate 8 0)) _ rfl,
   version_variant_invariant.2 0 true none _ rfl⟩

/-- C7 counterexample: the UUID whose first 6 bytes are
`0x01 0x8E 0x38 0x3B 0x3C 0x80` (here with zero trailing bytes) does
not decode to the Unix-epoch instant 1700000000000000 microseconds:
those bytes are the 48-bit integer 1710340390016, not 1700000000000. -/
theorem scenario_decode_counterexample :
    uuid_v7_to_timestamptz
        [0x01, 0x8E, 0x38, 0x3B, 0x3C, 0x80, 0, 0, 0, 0, 0, 0, 0, 0, 0, 0] +
      (EPOCH_DIFF_USECS : Int) ≠ 1700000000000000 := by decide

/-- C7 as amended: for every UUID whose first 6 bytes are
`0x01 0x8B 0xCF 0xE5 0x68 0x00` (the big-endian encoding of
1700000000000 milliseconds), decoding yields the instant
1700000000000000 microseconds since the Unix epoch (the returned
PostgreSQL-epoch count plus `EPOCH_DIFF_USECS`), regardless of the
remaining bytes. -/
theorem scenario_decode_1700000000000 (rest : List Nat) :
    uuid_v7_to_timestamptz ([0x01, 0x8B, 0xCF, 0xE5, 0x68, 0x00] ++ rest) +
      (EPOCH_DIFF_USECS : Int) = 1700000000000000 := by
  have hb : beVal6 ([0x01, 0x8B, 0xCF, 0xE5, 0x68, 0x00] ++ rest) = 1700000000000 := by
    norm_num [beVal6]
  unfold uuid_v7_to_timestamptz uuid_v7_to_uint64 toSigned64
  rw [hb]
  norm_num [EPOCH_DIFF_USECS]

/-- C3: for every 16-byte UUID, decoding returns exactly
`millis * 1000 - EPOCH_DIFF_USECS` as a signed 64-bit value, where
`millis` is bytes 0..5 read as a big-endian 48-bit integer; and any two
UUIDs agreeing on their first 6 bytes decode to the same value (bytes
6..15 never influence the result).  Decoding is modelled as a total
function: no error path exists. -/
theorem decode_reads_first6_only (u : List Nat) (hlen : u.length = 16)
    (hbytes : ∀ b ∈ u, b < 256) :
    uuid_v7_to_timestamptz u = 1000 * (beVal6 u : Int) - (EPOCH_DIFF_USECS : Int) ∧
    ∀ v : List Nat, v.take 6 = u.take 6 →
      uuid_v7_to_timestamptz v = uuid_v7_to_timestamptz u := by
  constructor
  · have h0 := getD_lt_of_bytes hlen hbytes 0 (by norm_num)
    have h1 := getD_lt_of_bytes hlen hbytes 1 (by norm_num)
    have h2 := getD_lt_of_bytes hlen hbytes 2 (by norm_num)
    have h3 := getD_lt_of_bytes hlen hbytes 3 (by norm_num)
    have h4 := getD_lt_of_bytes hlen hbytes 4 (by norm_num)
    have h5 := getD_lt_of_bytes hlen hbytes 5 (by norm_num)
    have hm : beVal6 u < 2 ^ 48 := by
      unfold beVal6
      omega
    have hE : EPOCH_DIFF_USECS = 946684800000000 := by norm_num [EPOCH_DIFF_USECS]
    unfold uuid_v7_to_timestamptz uuid_v7_to_uint64 toSigned64
    rw [hE]
    split_ifs with hc
    · omega
    · omega
  · intro v hv
    unfold uuid_v7_to_timestamptz uuid_v7_to_uint64
    rw [beVal6_congr hv]

/-- Witness for C3: the all-zero UUID decodes to the stated formula, and
a UUID sharing its first 6 bytes but with arbitrary trailing bytes
decodes identically. -/
theorem decode_reads_first6_only_witness :
    uuid_v7_to_timestamptz (List.replicate 16 0) =
      1000 * (beVal6 (List.replicate 16 0) : Int) - (EPOCH_DIFF_USECS : Int) ∧
    uuid_v7_to_timestamptz (List.replicate 6 0 ++ List.replicate 10 255) =
      uuid_v7_to_timestamptz (List.replicate 16 0) :=
  ⟨(decode_reads_first6_only (List.replicate 16 0) (by decide) (by decide)).1,
   (decode_reads_first6_only (List.replicate 16 0) (by decide) (by decide)).2
     (List.replicate 6 0 ++ List.replicate 10 255) (by decide)⟩

/-- C10: for every signed 64-bit timestamp, including negative values
and values whose millisecond count exceeds 48 bits, `uuid_uint64_to_v7`
raises no range error (with `zero_fill = true` it always succeeds) and
stores in bytes 0..5 the value
`((ts + EPOCH_DIFF_USECS) mod 2^64, as unsigned) / 1000 mod 2^48`
as a big-endian 48-bit integer. -/
theorem encode_wraparound (ts : Int) (hlo : -(2 ^ 63) ≤ ts) (hhi : ts < 2 ^ 63)
    (zero : Bool) (rand : Option (List Nat)) :
    (∀ u, uuid_uint64_to_v7 ts zero rand = .ok u →
        u.take 6 =
          be48 (((ts + (EPOCH_DIFF_USECS : Int)) % 2 ^ 64).toNat / 1000 % 2 ^ 48)) ∧
    ∃ u, uuid_uint64_to_v7 ts true rand = .ok u := by
  have hE : EPOCH_DIFF_USECS = 946684800000000 := by norm_num [EPOCH_DIFF_USECS]
  have hkey : (toUnsigned64 ts + EPOCH_DIFF_USECS) % 2 ^ 64 =
      ((ts + (EPOCH_DIFF_USECS : Int)) % 2 ^ 64).toNat := by
    unfold toUnsigned64
    rw [hE]
    omega
  constructor
  · intro u h
    rcases zero with _ | _
    · rcases rand with _ | r
      · simp [uuid_uint64_to_v7] at h
      · simp only [uuid_uint64_to_v7, Bool.false_eq_true, if_false,
          Except.ok.injEq] at h
        subst h
        simp only [List.take_succ_cons, List.take_zero, encode_shift_eq, hkey]
        norm_num [be48, beByte]
        omega
    · simp only [uuid_uint64_to_v7, if_true, Except.ok.injEq] at h
      subst h
      simp only [List.take_succ_cons, List.take_zero, encode_shift_eq, hkey]
      norm_num [be48, beByte]
      omega
  · exact ⟨_, rfl⟩

/-- Witness for C10 at `ts = -1` (a negative timestamp, exercising the
unsigned wraparound path). -/
theorem encode_wraparound_witness :
    [0, 220, 106, 207, 171, 255, 112, 0, 128, 0, 0, 0, 0, 0, 0, 0].take 6 =
      be48 ((((-1 : Int) + (EPOCH_DIFF_USECS : Int)) % 2 ^ 64).toNat / 1000 % 2 ^ 48) ∧
    ∃ u, uuid_uint64_to_v7 (-1) true none = .ok u :=
  ⟨(encode_wraparound (-1) (by norm_num) (by norm_num) true none).1 _ rfl,
   (encode_wraparound (-1) (by norm_num) (by norm_num) true none).2⟩

/-- C1: for every signed 64-bit timestamp whose epoch-adjusted
millisecond value fits the 48-bit field (i.e.
`0 ≤ (ts + EPOCH_DIFF_USECS) / 1000 < 2 ^ 48` with floor division),
decoding the zero-filled encoding of `ts` gives `ts` truncated down to
the nearest whole millisecond:
`1000 * ((ts + EPOCH_DIFF_USECS) / 1000) - EPOCH_DIFF_USECS`. -/
theorem roundtrip_ms_floor (ts : Int)
    (h1 : 0 ≤ (ts + (EPOCH_DIFF_USECS : Int)) / 1000)
    (h2 : (ts + (EPOCH_DIFF_USECS : Int)) / 1000 < 2 ^ 48) :
    (uuid_uint64_to_v7 ts true none).map uuid_v7_to_timestamptz =
      .ok (1000 * ((ts + (EPOCH_DIFF_USECS : Int)) / 1000) -
        (EPOCH_DIFF_USECS : Int)) := by
  have hE : EPOCH_DIFF_USECS = 946684800000000 := by norm_num [EPOCH_DIFF_USECS]
  have hE2 : (EPOCH_DIFF_USECS : Int) = 946684800000000 := by
    rw [hE]
    norm_num
  rw [hE2] at h1 h2 ⊢
  have hx1 : 0 ≤ ts + (946684800000000 : Int) := by omega
  have hx2 : ts + (946684800000000 : Int) < 2 ^ 64 := by omega
  have htms : (toUnsigned64 ts + EPOCH_DIFF_USECS) % 2 ^ 64 / 1000 =
      ((ts + (946684800000000 : Int)) / 1000).toNat := by
    unfold toUnsigned64
    rw [hE]
    have hstep : ((ts % 2 ^ 64).toNat + 946684800000000) % 2 ^ 64 =
        ((ts + (946684800000000 : Int)) % 2 ^ 64).toNat := by omega
    rw [hstep]
    omega
  simp only [uuid_uint64_to_v7, if_true, Except.map, htms, encode_shift_eq]
  simp only [Except.ok.injEq]
  unfold uuid_v7_to_timestamptz uuid_v7_to_uint64 toSigned64
  have hb : beVal6
      [beByte (((ts + (946684800000000 : Int)) / 1000).toNat % 2 ^ 48 * 65536) 0,
       beByte (((ts + (946684800000000 : Int)) / 1000).toNat % 2 ^ 48 * 65536) 1,
       beByte (((ts + (946684800000000 : Int)) / 1000).toNat % 2 ^ 48 * 65536) 2,
       beByte (((ts + (946684800000000 : Int)) / 1000).toNat % 2 ^ 48 * 65536) 3,
       beByte (((ts + (946684800000000 : Int)) / 1000).toNat % 2 ^ 48 * 65536) 4,
       beByte (((ts + (946684800000000 : Int)) / 1000).toNat % 2 ^ 48 * 65536) 5,
       (List.replicate 10 0).getD 0 0 &&& 15 ||| 112,
       (List.replicate 10 0).getD 1 0,
       (List.replicate 10 0).getD 2 0 &&& 63 ||| 128,
       (List.replicate 10 0).getD 3 0, (List.replicate 10 0).getD 4 0,
       (List.replicate 10 0).getD 5 0, (List.replicate 10 0).getD 6 0,
       (List.replicate 10 0).getD 7 0, (List.replicate 10 0).getD 8 0,
       (List.replicate 10 0).getD 9 0] =
      ((ts + (946684800000000 : Int)) / 1000).toNat := by
    norm_num [beVal6, beByte]
    omega
  rw [hb]
  rw [hE]
  split_ifs with hc
  · omega
  · omega

/-- Witness for C1 at `ts = 1234567` (1.234567 seconds past the
PostgreSQL epoch): the decoded value is the millisecond floor
`1234000`. -/
theorem roundtrip_ms_floor_witness :
    0 ≤ ((1234567 : Int) + (EPOCH_DIFF_USECS : Int)) / 1000 ∧
    ((1234567 : Int) + (EPOCH_DIFF_USECS : Int)) / 1000 < 2 ^ 48 ∧
    (uuid_uint64_to_v7 1234567 true none).map uuid_v7_to_timestamptz =
      .ok (1000 * (((1234567 : Int) + (EPOCH_DIFF_USECS : Int)) / 1000) -
        (EPOCH_DIFF_USECS : Int)) :=
  ⟨by norm_num [EPOCH_DIFF_USECS], by norm_num [EPOCH_DIFF_USECS],
   roundtrip_ms_floor 1234567 (by norm_num [EPOCH_DIFF_USECS])
     (by norm_num [EPOCH_DIFF_USECS])⟩

/-- The six big-endian digits of a 48-bit value compare
lexicographically whenever the values compare. -/
theorem digits_lex (m1 m2 : Nat) (hlt : m1 < m2) (hfit : m2 < 2 ^ 48) :
    m1 / 2 ^ 40 % 256 < m2 / 2 ^ 40 % 256 ∨
    m1 / 2 ^ 40 % 256 = m2 / 2 ^ 40 % 256 ∧
    (m1 / 2 ^ 32 % 256 < m2 / 2 ^ 32 % 256 ∨
    m1 / 2 ^ 32 % 256 = m2 / 2 ^ 32 % 256 ∧
    (m1 / 2 ^ 24 % 256 < m2 / 2 ^ 24 % 256 ∨
    m1 / 2 ^ 24 % 256 = m2 / 2 ^ 24 % 256 ∧
    (m1 / 2 ^ 16 % 256 < m2 / 2 ^ 16 % 256 ∨
    m1 / 2 ^ 16 % 256 = m2 / 2 ^ 16 % 256 ∧
    (m1 / 2 ^ 8 % 256 < m2 / 2 ^ 8 % 256 ∨
    m1 / 2 ^ 8 % 256 = m2 / 2 ^ 8 % 256 ∧
    m1 % 256 < m2 % 256)))) := by
  rcases Nat.lt_or_ge (m1 / 2 ^ 40 % 256) (m2 / 2 ^ 40 % 256) with h0 | h0
  · exact Or.inl h0
  have d0 : m1 / 2 ^ 40 = m2 / 2 ^ 40 := by omega
  refine Or.inr ⟨by omega, ?_⟩
  rcases Nat.lt_or_ge (m1 / 2 ^ 32 % 256) (m2 / 2 ^ 32 % 256) with h1 | h1
  · exact Or.inl h1
  have d1 : m1 / 2 ^ 32 = m2 / 2 ^ 32 := by omega
  refine Or.inr ⟨by omega, ?_⟩
  rcases Nat.lt_or_ge (m1 / 2 ^ 24 % 256) (m2 / 2 ^ 24 % 256) with h2 | h2
  · exact Or.inl h2
  have d2 : m1 / 2 ^ 24 = m2 / 2 ^ 24 := by omega
  refine Or.inr ⟨by omega, ?_⟩
  rcases Nat.lt_or_ge (m1 / 2 ^ 16 % 256) (m2 / 2 ^ 16 % 256) with h3 | h3
  · exact Or.inl h3
  have d3 : m1 / 2 ^ 16 = m2 / 2 ^ 16 := by omega
  refine Or.inr ⟨by omega, ?_⟩
  rcases Nat.lt_or_ge (m1 / 2 ^ 8 % 256) (m2 / 2 ^ 8 % 256) with h4 | h4
  · exact Or.inl h4
  have d4 : m1 / 2 ^ 8 = m2 / 2 ^ 8 := by omega
  exact Or.inr ⟨by omega, by omega⟩

/-- The first six bytes of the assembled first word are the big-endian
digits of its 48-bit millisecond field. -/
theorem word_byte (a f : Nat) (hf : f < 4096) :
    beByte (a * 65536 + 28672 + f) 0 = a / 2 ^ 40 % 256 ∧
    beByte (a * 65536 + 28672 + f) 1 = a / 2 ^ 32 % 256 ∧
    beByte (a * 65536 + 28672 + f) 2 = a / 2 ^ 24 % 256 ∧
    beByte (a * 65536 + 28672 + f) 3 = a / 2 ^ 16 % 256 ∧
    beByte (a * 65536 + 28672 + f) 4 = a / 2 ^ 8 % 256 ∧
    beByte (a * 65536 + 28672 + f) 5 = a % 256 := by
  unfold beByte
  norm_num
  refine ⟨?_, ?_, ?_, ?_, ?_, ?_⟩ <;> omega

/-- A lexicographic comparison of byte sequences is decided by the
first six positions when they contain a strict difference. -/
theorem lexLt_of_first6 (a0 a1 a2 a3 a4 a5 b0 b1 b2 b3 b4 b5 : Nat)
    (ta tb : List Nat)
    (h : a0 < b0 ∨ a0 = b0 ∧ (a1 < b1 ∨ a1 = b1 ∧ (a2 < b2 ∨ a2 = b2 ∧
      (a3 < b3 ∨ a3 = b3 ∧ (a4 < b4 ∨ a4 = b4 ∧ a5 < b5))))) :
    lexLt (a0 :: a1 :: a2 :: a3 :: a4 :: a5 :: ta)
      (b0 :: b1 :: b2 :: b3 :: b4 :: b5 :: tb) = true := by
  simp only [lexLt, Bool.or_eq_true, decide_eq_true_eq, Bool.and_eq_true,
    beq_iff_eq]
  tauto

/-- C8: if `uuid_generate_v7` observes a clock time with a strictly
smaller Unix-epoch millisecond count than a second call (both counts
within the 48-bit field), the first UUID is lexicographically smaller
than the second, for every choice of random tail bytes. -/
theorem generate_monotonic (sec1 nsec1 sec2 nsec2 : Nat)
    (r1 r2 : Option (List Nat)) (u1 u2 : List Nat)
    (hlt : sec1 * 1000 + nsec1 / 1000000 < sec2 * 1000 + nsec2 / 1000000)
    (hfit : sec2 * 1000 + nsec2 / 1000000 < 2 ^ 48)
    (h1 : uuid_generate_v7 (some (sec1, nsec1)) r1 = .ok u1)
    (h2 : uuid_generate_v7 (some (sec2, nsec2)) r2 = .ok u2) :
    lexLt u1 u2 = true := by
  rcases r1 with _ | r1
  · simp [uuid_generate_v7] at h1
  rcases r2 with _ | r2
  · simp [uuid_generate_v7] at h2
  simp only [uuid_generate_v7, Except.ok.injEq] at h1 h2
  subst h1
  subst h2
  have hf1 := v7_subms_fraction_lt nsec1
  have hf2 := v7_subms_fraction_lt nsec2
  apply lexLt_of_first6
  rw [v7_first_word_eq _ _ hf1, v7_first_word_eq _ _ hf2]
  have hm1 : (sec1 * 1000 + nsec1 / 1000000) % 2 ^ 64 % 2 ^ 48 =
      sec1 * 1000 + nsec1 / 1000000 := by omega
  have hm2 : (sec2 * 1000 + nsec2 / 1000000) % 2 ^ 64 % 2 ^ 48 =
      sec2 * 1000 + nsec2 / 1000000 := by omega
  rw [hm1, hm2]
  obtain ⟨w10, w11, w12, w13, w14, w15⟩ :=
    word_byte (sec1 * 1000 + nsec1 / 1000000) _ hf1
  obtain ⟨w20, w21, w22, w23, w24, w25⟩ :=
    word_byte (sec2 * 1000 + nsec2 / 1000000) _ hf2
  rw [w10, w11, w12, w13, w14, w15, w20, w21, w22, w23, w24, w25]
  exact digits_lex _ _ hlt hfit

/-- Witness for C8: a call at time 0 and a call two milliseconds later
with zeroed random tails give lexicographically increasing UUIDs. -/
theorem generate_monotonic_witness :
    lexLt [0, 0, 0, 0, 0, 0, 112, 0, 128, 0, 0, 0, 0, 0, 0, 0]
      [0, 0, 0, 0, 0, 2, 112, 0, 128, 0, 0, 0, 0, 0, 0, 0] = true :=
  generate_monotonic 0 0 0 2000000 (some (List.replicate 8 0))
    (some (List.replicate 8 0)) _ _ (by decide) (by decide) rfl rfl

end PgUuidv7
